import Mathlib

/-!
Verification development for an excerpt of the daphne distributed runtime:
the MPI transport helper (`src/runtime/distributed/worker/MPIHelper.h`) and
the full-aggregation kernel (`src/runtime/local/kernels/AggAll.h`).

Byte buffers (`std::vector<char>`) are modelled as `List Nat` of byte values;
`size_t` fields are written in 8-byte little-endian order, exactly as the raw
`std::copy` of the object representation does on the target platform.
-/

namespace Daphne

/-- Little-endian byte encoding of a natural number in `k` bytes, modelling the
raw copy of a `k`-byte unsigned integer (`size_t` is `k = 8`, and the value is
implicitly taken modulo `2^(8*k)`). -/
def natToLE : Nat → Nat → List Nat
  | 0, _ => []
  | k + 1, n => n % 256 :: natToLE k (n / 256)

/-- Value of a little-endian byte list, modelling the raw read of an unsigned
integer back from bytes. -/
def bytesFromLE : List Nat → Nat
  | [] => 0
  | b :: bs => b + 256 * bytesFromLE bs

/-- Modelled from the spec: `WorkerImpl::StoredInfo` (the DataHandleDescriptor:
identifier, numRows, numCols). `WorkerImpl.h` is not part of this excerpt; the
spec gives the field list. `numRows`/`numCols` are `size_t` on the machine,
modelled as `Nat`. -/
structure StoredInfo where
  identifier : String
  numRows : Nat
  numCols : Nat
deriving DecidableEq, Repr

/-- `MPIHelper::Task`: an MLIR code blob plus an ordered list of input
descriptors. -/
structure Task where
  mlir_code : String
  inputs : List StoredInfo
deriving DecidableEq, Repr

/-- Bytes of a C++ `std::string` in this model: one byte per character
(characters are assumed to be in the byte range, which the round-trip theorems
hypothesise). -/
def strBytes (s : String) : List Nat := s.data.map Char.toNat

/-- Bytes written by `Task::serialize` for one input descriptor:
`[identifier_len : u64][identifier bytes][numRows : u64][numCols : u64]`. -/
def encodeStoredInfo (inp : StoredInfo) : List Nat :=
  natToLE 8 inp.identifier.length ++ strBytes inp.identifier ++
    natToLE 8 inp.numRows ++ natToLE 8 inp.numCols

/-- `Task::serialize`: packed header `[mlir_code_len : u64][num_inputs : u64]`,
then the code bytes, then the encoded inputs in order. This models the byte
sequence the `std::copy` calls write through the buffer iterator. -/
def Task.serialize (t : Task) : List Nat :=
  natToLE 8 t.mlir_code.length ++ natToLE 8 t.inputs.length ++
    strBytes t.mlir_code ++ (t.inputs.map encodeStoredInfo).flatten

/-- `Task::sizeInBytes` as the code computes it:
`sizeof(Header) + mlir_code.size() + sizeof(StoredInfo) * inputs.size()`.
`sizeof(Header)` is 16 (two packed `size_t`); `sizeof(StoredInfo)` is a
compile-time constant (the in-memory size of the struct, e.g. 48 with a
32-byte `std::string` and two 8-byte `size_t` on LP64 libstdc++), which we
keep as a parameter since it is implementation-defined — crucially it does
not depend on the identifier's length. -/
def Task.sizeInBytes (sizeofStoredInfo : Nat) (t : Task) : Nat :=
  16 + t.mlir_code.length + sizeofStoredInfo * t.inputs.length

/-- Read of an 8-byte unsigned integer at the front of the remaining buffer
(the `std::copy` into a `size_t`). Reads past the end of the buffer see
nothing in the model (`take` stops); the out-of-bounds theorems account for
the bytes the code would actually touch via `deserializeExtent`. -/
def readU64 (buf : List Nat) : Nat :=
  bytesFromLE (buf.take 8)

/-- Read of `len` string bytes at the front of the remaining buffer. -/
def readStr (buf : List Nat) (len : Nat) : String :=
  ⟨(buf.take len).map Char.ofNat⟩

/-- Input-descriptor loop of `Task::deserialize`: for each of the `k` inputs,
read `[strLen : u64][identifier : strLen][numRows : u64][numCols : u64]`,
advancing the iterator (modelled by dropping the consumed prefix) past each
field. -/
def readInputs : Nat → List Nat → List StoredInfo
  | 0, _ => []
  | k + 1, buf =>
    let strLen := readU64 buf
    let buf1 := buf.drop 8
    let ident := readStr buf1 strLen
    let buf2 := buf1.drop strLen
    let rows := readU64 buf2
    let buf3 := buf2.drop 8
    let cols := readU64 buf3
    ⟨ident, rows, cols⟩ :: readInputs k (buf3.drop 8)

/-- `Task::deserialize`: read the packed header (code length and input count)
from the front, skip the 16 header bytes, read the code bytes, then the
inputs positionally. -/
def Task.deserialize (buffer : List Nat) : Task :=
  let mlir_code_len := readU64 buffer
  let num_inputs := readU64 (buffer.drop 8)
  let body := buffer.drop 16
  { mlir_code := readStr body mlir_code_len
    inputs := readInputs num_inputs (body.drop mlir_code_len) }

/-- Number of bytes the input loop of `Task::deserialize` advances over (and
hence reads): the code performs no bounds check, so each iteration reads 8
bytes of length, `strLen` bytes of identifier and 16 bytes of row/col counts
wherever the iterator stands. -/
def readInputsConsumed : Nat → List Nat → Nat
  | 0, _ => 0
  | k + 1, buf =>
    let strLen := readU64 buf
    8 + strLen + 16 + readInputsConsumed k (((buf.drop 8).drop strLen).drop 16)

/-- One-past-the-last byte offset `Task::deserialize` accesses on a given
buffer: 16 header bytes, `mlir_code_len` code bytes, then whatever the input
loop consumes. The code never compares this against the buffer's size. -/
def deserializeExtent (buffer : List Nat) : Nat :=
  let mlir_code_len := readU64 buffer
  let num_inputs := readU64 (buffer.drop 8)
  16 + mlir_code_len + readInputsConsumed num_inputs ((buffer.drop 16).drop mlir_code_len)

/-! ## Aggregation kernel (`AggAll.h`)

The kernels are templates over a result value type `VTRes`; we instantiate
with `ℚ`, which represents the integer test values and the exact result of
the `MEAN` division. The opcode utilities (`AggOpCode.h`, `EwBinarySca.h`)
are not part of this excerpt and are modelled from the spec. -/

/-- Modelled from the spec: the aggregation opcodes named there — the pure
binary reductions (sum, product, min, max) and the derived opcodes (mean,
standard deviation). `AggOpCode.h` is not part of this excerpt. -/
inductive AggOpCode
  | SUM
  | PROD
  | MIN
  | MAX
  | MEAN
  | STDDEV
deriving DecidableEq, Repr

/-- Modelled from the spec: the binary scalar opcodes backing the pure
reductions. `EwBinarySca.h` is not part of this excerpt. -/
inductive BinaryOpCode
  | ADD
  | MUL
  | MIN
  | MAX
deriving DecidableEq, Repr

/-- Modelled from the spec: the scalar function `getEwBinaryScaFuncPtr`
resolves for a binary opcode (`EwBinarySca.h` is not part of this excerpt). -/
def ewBinFunc : BinaryOpCode → ℚ → ℚ → ℚ
  | .ADD => (· + ·)
  | .MUL => (· * ·)
  | .MIN => min
  | .MAX => max

namespace AggOpCodeUtils

/-- Modelled from the spec: mean and standard deviation are the derived
opcodes; everything else is a pure binary reduction. -/
def isPureBinaryReduction : AggOpCode → Bool
  | .MEAN | .STDDEV => false
  | _ => true

/-- Modelled from the spec: the binary opcode of each pure reduction. The
kernels only query it for pure reductions and for `SUM`; the value on the
derived opcodes is never used. -/
def getBinaryOpCode : AggOpCode → BinaryOpCode
  | .SUM => .ADD
  | .PROD => .MUL
  | .MIN => .MIN
  | .MAX => .MAX
  | .MEAN => .ADD
  | .STDDEV => .ADD

/-- Modelled from the spec: combining with an implicit zero is harmless only
for sum ("true for min/max-like ops, false for sum" refers to *not*
sparse-safe). -/
def isSparseSafe : AggOpCode → Bool
  | .SUM => true
  | _ => false

/-- Modelled from the spec: the neutral element of each reduction. The
type-extreme neutrals of MIN/MAX (`numeric_limits` bounds) have no `ℚ`
counterpart; the claims only use the neutral abstractly or for `SUM`, so
those two are represented by `0`. -/
def getNeutral : AggOpCode → ℚ
  | .SUM => 0
  | .PROD => 1
  | _ => 0

end AggOpCodeUtils

/-- a `CSRMatrix<VTArg>` as the kernel consumes it: shape plus the stored
non-zero values array; `getNumNonZeros()` is the length of that array. -/
structure CSRMatrix where
  numRows : Nat
  numCols : Nat
  values : List ℚ
deriving DecidableEq, Repr

/-- `AggAll<VTRes, CSRMatrix<VTArg>>::aggArray`: if there are stored values,
fold them left-to-right seeded with `values[0]` (the loop runs `i` from 1 to
`numNonZeros - 1`), then, when the opcode is not sparse-safe and some cells
are unrepresented, combine once more with 0; with no stored values, combine
the neutral element once with 0. -/
def aggArray (values : List ℚ) (numNonZeros numCells : Nat)
    (func : ℚ → ℚ → ℚ) (sparseSafe : Bool) (neutral : ℚ) : ℚ :=
  if numNonZeros ≠ 0 then
    let agg := (List.range (numNonZeros - 1)).foldl
      (fun a i => func a (values.getD (i + 1) 0)) (values.getD 0 0)
    if sparseSafe = false ∧ numNonZeros < numCells then func agg 0 else agg
  else
    func neutral 0

/-- `AggAll<VTRes, CSRMatrix<VTArg>>::apply`: pure reductions go through
`aggArray` with the opcode's function, sparse-safety and neutral element;
derived opcodes force a sparse-safe SUM pass, divide by the cell count for
MEAN, and throw for STDDEV. -/
def csrAggAll (opCode : AggOpCode) (arg : CSRMatrix) : Except String ℚ :=
  if AggOpCodeUtils.isPureBinaryReduction opCode then
    .ok (aggArray arg.values arg.values.length (arg.numRows * arg.numCols)
      (ewBinFunc (AggOpCodeUtils.getBinaryOpCode opCode))
      (AggOpCodeUtils.isSparseSafe opCode)
      (AggOpCodeUtils.getNeutral opCode))
  else
    let agg := aggArray arg.values arg.values.length (arg.numRows * arg.numCols)
      (ewBinFunc (AggOpCodeUtils.getBinaryOpCode .SUM)) true 0
    if opCode = .MEAN then
      .ok (agg / ((arg.numRows * arg.numCols : Nat) : ℚ))
    else
      .error "unsupported AggOpCode in AggAll for CSRMatrix"

/-- a `DenseMatrix<VTArg>` as the kernel consumes it: shape, row stride
(`getRowSkip()`), and the flat values array the raw pointer walks. -/
structure DenseMatrix where
  numRows : Nat
  numCols : Nat
  rowSkip : Nat
  values : List ℚ
deriving DecidableEq, Repr

/-- `AggAll<VTRes, DenseMatrix<VTArg>>::apply`: resolve the function and the
seed (the opcode's neutral element for pure reductions, a SUM over zero for
the derived opcodes), fold over all rows and logical columns advancing the
value pointer by `getRowSkip()` per row, then return the accumulator for pure
reductions, divide by `numCols * numRows` for MEAN, and throw for STDDEV. -/
def denseAggAll (opCode : AggOpCode) (arg : DenseMatrix) : Except String ℚ :=
  let func : ℚ → ℚ → ℚ :=
    if AggOpCodeUtils.isPureBinaryReduction opCode then
      ewBinFunc (AggOpCodeUtils.getBinaryOpCode opCode)
    else
      ewBinFunc (AggOpCodeUtils.getBinaryOpCode .SUM)
  let init : ℚ :=
    if AggOpCodeUtils.isPureBinaryReduction opCode then
      AggOpCodeUtils.getNeutral opCode
    else 0
  let agg := (List.range arg.numRows).foldl
    (fun a r => (List.range arg.numCols).foldl
      (fun a2 c => func a2 (arg.values.getD (r * arg.rowSkip + c) 0)) a) init
  if AggOpCodeUtils.isPureBinaryReduction opCode then
    .ok agg
  else if opCode = .MEAN then
    .ok (agg / ((arg.numCols * arg.numRows : Nat) : ℚ))
  else
    .error "unsupported AggOpCode in AggAll for DenseMatrix"

/-- Sum of all logical cells of a dense matrix, walking rows by the row
stride — the reference value for the MEAN accumulation. -/
def cellSum (m : DenseMatrix) : ℚ :=
  ((List.range m.numRows).map (fun r =>
    ((List.range m.numCols).map (fun c => m.values.getD (r * m.rowSkip + c) 0)).sum)).sum

/-! ## Message distribution (`MPIHelper::distributeWithTag`) and the
acknowledgment parser (`MPIHelper::constructStoredInfo`) -/

/-- the `TypesOfMessages` enumeration, in declaration order (values 0..11). -/
inductive TypesOfMessages
  | BROADCAST
  | DATASIZE
  | DATA
  | DATAACK
  | MLIRSIZE
  | MLIR
  | INPUTKEYS
  | OUTPUT
  | OUTPUTKEY
  | DETACH
  | OBJECTIDENTIFIERSIZE
  | OBJECTIDENTIFIER
deriving DecidableEq, Repr

/-- Integer value of a `TypesOfMessages` enumerator. -/
def tagValue : TypesOfMessages → Int
  | .BROADCAST => 0
  | .DATASIZE => 1
  | .DATA => 2
  | .DATAACK => 3
  | .MLIRSIZE => 4
  | .MLIR => 5
  | .INPUTKEYS => 6
  | .OUTPUT => 7
  | .OUTPUTKEY => 8
  | .DETACH => 9
  | .OBJECTIDENTIFIERSIZE => 10
  | .OBJECTIDENTIFIER => 11

/-- Payload of one `MPI_Send`: either a single `int` value (the length
message) or a raw byte payload. -/
inductive MpiPayload
  | intVal (n : Nat)
  | raw (data : List Nat)
deriving DecidableEq, Repr

/-- One point-to-point send event: destination rank, message tag, payload. -/
structure MpiSend where
  dest : Nat
  tag : Int
  payload : MpiPayload
deriving DecidableEq, Repr

/-- `COORDINATOR` rank (the `#define COORDINATOR 0`). -/
def COORDINATOR : Nat := 0

/-- `MPIHelper::distributeWithTag`, modelled as the list of send events it
performs in order. Nothing is sent to the coordinator's own rank. The payload
length is narrowed to `int message = messageLength` (modelled as the 4-byte
value `messageLength % 2^32`); the switch resolves `(sizeTag, dataTag)` only
for `DATA` and `MLIR` and leaves both at `-1` otherwise; then the length is
sent under `sizeTag` and `message` bytes of payload under `dataTag`. -/
def distributeWithTag (tag : TypesOfMessages) (messageLength : Nat)
    (data : List Nat) (rank : Nat) : List MpiSend :=
  if rank = COORDINATOR then []
  else
    let message : Nat := messageLength % 2 ^ 32
    let tags : Int × Int :=
      match tag with
      | .DATA => (tagValue .DATASIZE, tagValue .DATA)
      | .MLIR => (tagValue .MLIRSIZE, tagValue .MLIR)
      | _ => (-1, -1)
    [⟨rank, tags.1, .intVal message⟩, ⟨rank, tags.2, .raw (data.take message)⟩]

/-- `MPIHelper::distributeData`: distribute with the `DATA` category. -/
def distributeData (messageLength : Nat) (data : List Nat) (rank : Nat) :
    List MpiSend :=
  distributeWithTag .DATA messageLength data rank

/-- `MPIHelper::distributeTask`: distribute with the `MLIR` (task code)
category. -/
def distributeTask (messageLength : Nat) (data : List Nat) (rank : Nat) :
    List MpiSend :=
  distributeWithTag .MLIR messageLength data rank

/-- `sscanf(s, "%zu", &out)` for a single `size_t` conversion: skip leading
whitespace, accept an optional sign, then require at least one decimal digit;
the digits are consumed greedily and the value wraps as an unsigned 64-bit
quantity (a leading minus negates modulo `2^64`, as `strtoul` does). `none`
models a matching failure, in which case the C call assigns nothing. -/
def sscanfZu (s : String) : Option Nat :=
  let cs := s.data.dropWhile Char.isWhitespace
  let signAndRest : Bool × List Char :=
    match cs with
    | '-' :: rest => (true, rest)
    | '+' :: rest => (false, rest)
    | _ => (false, cs)
  let ds := signAndRest.2.takeWhile Char.isDigit
  if ds = [] then none
  else
    let v := (ds.foldl (fun a c => a * 10 + (c.toNat - 48)) 0) % 2 ^ 64
    some (if signAndRest.1 then (2 ^ 64 - v) % 2 ^ 64 else v)

/-- the `getline(s_stream, substr, ',')`-until-`good()` loop of
`constructStoredInfo`, on the remaining characters with the current field
accumulated: a comma closes the current field and continues; end of input
closes the last field (after a trailing comma the final `getline` extracts
nothing and pushes an empty field, matching the `acc = []` base case; an
empty input likewise yields one empty field). -/
def getlineFields : List Char → List Char → List String
  | [], acc => [⟨acc⟩]
  | c :: rest, acc =>
    if c = ',' then (⟨acc⟩ : String) :: getlineFields rest []
    else getlineFields rest (acc ++ [c])

/-- Comma-splitting of the acknowledgment string as the `stringstream` loop
performs it. -/
def splitComma (s : String) : List String :=
  getlineFields s.data []

/-- `std::vector::at`: element access with an exception on an out-of-range
index, modelled as `Except`. -/
def vectorAt (l : List String) (i : Nat) : Except String String :=
  match l.get? i with
  | some x => .ok x
  | none => .error "out_of_range"

/-- `MPIHelper::constructStoredInfo`: split the input on commas with the
`getline` loop, take fields 0, 1 and 2 via `vector::at` (which throws when
fewer than 3 fields exist), and `sscanf` the two numeric fields — the result
of `sscanf` is ignored, so an unparseable field assigns nothing and the
descriptor field keeps its previous (indeterminate) value, modelled as 0. -/
def constructStoredInfo (input : String) : Except String StoredInfo := do
  let results := splitComma input
  let ident ← vectorAt results 0
  let rowsStr ← vectorAt results 1
  let colsStr ← vectorAt results 2
  .ok { identifier := ident
        numRows := (sscanfZu rowsStr).getD 0
        numCols := (sscanfZu colsStr).getD 0 }

/-- Whether an `Except` result is a success — the observable "no exception
was thrown" outcome of `constructStoredInfo`. -/
def exceptOk : Except String StoredInfo → Bool
  | .ok _ => true
  | .error _ => false

/-! ## Lemmas about the byte encodings -/

theorem natToLE_length (k n : Nat) : (natToLE k n).length = k := by
  induction k generalizing n with
  | zero => rfl
  | succ k ih => simp [natToLE, ih]

theorem bytesFromLE_natToLE (k n : Nat) :
    bytesFromLE (natToLE k n) = n % 256 ^ k := by
  induction k generalizing n with
  | zero => simp [natToLE, bytesFromLE, Nat.mod_one]
  | succ k ih =>
    show n % 256 + 256 * bytesFromLE (natToLE k (n / 256)) = _
    rw [ih]
    rw [pow_succ]
    rw [mul_comm (256 ^ k) 256]
    rw [Nat.mod_mul]

theorem strBytes_length (s : String) : (strBytes s).length = s.length := by
  simp [strBytes]

theorem take_length_append {α : Type} (a b : List α) (n : Nat)
    (h : n = a.length) : (a ++ b).take n = a := by
  subst h; exact List.take_left a b

theorem drop_length_append {α : Type} (a b : List α) (n : Nat)
    (h : n = a.length) : (a ++ b).drop n = b := by
  subst h; exact List.drop_left a b

theorem readU64_append (n : Nat) (rest : List Nat) :
    readU64 (natToLE 8 n ++ rest) = n % 2 ^ 64 := by
  rw [readU64, take_length_append _ _ _ (natToLE_length 8 n).symm,
    bytesFromLE_natToLE]
  norm_num

theorem natToLE_append_drop (n : Nat) (rest : List Nat) :
    (natToLE 8 n ++ rest).drop 8 = rest :=
  drop_length_append _ _ _ (natToLE_length 8 n).symm

theorem readStr_append (s : String) (rest : List Nat) (len : Nat)
    (hl : len = s.length) :
    readStr (strBytes s ++ rest) len = s := by
  rw [readStr, take_length_append _ _ _ (hl.trans (strBytes_length s).symm)]
  simp [strBytes, List.map_map, Function.comp_def, Char.ofNat_toNat]

theorem strBytes_append_drop (s : String) (rest : List Nat) (len : Nat)
    (hl : len = s.length) :
    (strBytes s ++ rest).drop len = rest :=
  drop_length_append _ _ _ (hl.trans (strBytes_length s).symm)

theorem readStr_append2 (s : String) (rest : List Nat) :
    readStr (strBytes s ++ rest) s.length = s :=
  readStr_append s rest _ rfl

theorem strBytes_append_drop2 (s : String) (rest : List Nat) :
    (strBytes s ++ rest).drop s.length = rest :=
  strBytes_append_drop s rest _ rfl

theorem natToLE_natToLE_drop16 (n m : Nat) (rest : List Nat) :
    (natToLE 8 n ++ (natToLE 8 m ++ rest)).drop 16 = rest := by
  have h := List.drop_drop 8 8 (natToLE 8 n ++ (natToLE 8 m ++ rest))
  rw [natToLE_append_drop, natToLE_append_drop] at h
  simpa using h.symm

theorem readInputs_encode (inps : List StoredInfo)
    (h : ∀ inp ∈ inps, inp.identifier.length < 2 ^ 64 ∧
      inp.numRows < 2 ^ 64 ∧ inp.numCols < 2 ^ 64) :
    readInputs inps.length ((inps.map encodeStoredInfo).flatten) = inps := by
  induction inps with
  | nil => rfl
  | cons i rest ih =>
    obtain ⟨hid, hrows, hcols⟩ := h i (List.mem_cons_self i rest)
    have hrest := fun inp hm => h inp (List.mem_cons_of_mem i hm)
    have hB : encodeStoredInfo i ++ (rest.map encodeStoredInfo).flatten
        = natToLE 8 i.identifier.length ++ (strBytes i.identifier ++
          (natToLE 8 i.numRows ++ (natToLE 8 i.numCols ++
            (rest.map encodeStoredInfo).flatten))) := by
      simp [encodeStoredInfo, List.append_assoc]
    simp only [List.map_cons, List.flatten_cons, List.length_cons]
    rw [readInputs, hB]
    simp only [readU64_append, natToLE_append_drop,
      Nat.mod_eq_of_lt hid, Nat.mod_eq_of_lt hrows, Nat.mod_eq_of_lt hcols,
      readStr_append2, strBytes_append_drop2]
    rw [ih hrest]

/-- C1: deserializing the byte buffer produced by serializing a Task yields
the Task back field-for-field: same code string and the same ordered list of
(identifier, numRows, numCols) descriptors. The hypotheses record the claim's
scope (non-empty code, comma-free identifiers) and machine facts the byte
model makes explicit: `size_t` quantities fit in 64 bits and string
characters are bytes. -/
theorem serialize_deserialize_roundtrip (t : Task)
    (hne : t.mlir_code ≠ "")
    (hcodeBytes : ∀ c ∈ t.mlir_code.data, c.toNat < 256)
    (hcodeLen : t.mlir_code.length < 2 ^ 64)
    (hnum : t.inputs.length < 2 ^ 64)
    (hinp : ∀ inp ∈ t.inputs, inp.identifier.length < 2 ^ 64 ∧
      inp.numRows < 2 ^ 64 ∧ inp.numCols < 2 ^ 64 ∧
      (∀ c ∈ inp.identifier.data, c.toNat < 256) ∧ ',' ∉ inp.identifier.data) :
    Task.deserialize (Task.serialize t) = t := by
  have hinp3 : ∀ inp ∈ t.inputs, inp.identifier.length < 2 ^ 64 ∧
      inp.numRows < 2 ^ 64 ∧ inp.numCols < 2 ^ 64 := by
    intro inp hm
    exact ⟨(hinp inp hm).1, (hinp inp hm).2.1, (hinp inp hm).2.2.1⟩
  have hB : Task.serialize t = natToLE 8 t.mlir_code.length ++
      (natToLE 8 t.inputs.length ++ (strBytes t.mlir_code ++
        (t.inputs.map encodeStoredInfo).flatten)) := by
    simp [Task.serialize, List.append_assoc]
  rw [Task.deserialize, hB]
  simp only [readU64_append, natToLE_append_drop, natToLE_natToLE_drop16,
    Nat.mod_eq_of_lt hcodeLen, Nat.mod_eq_of_lt hnum,
    readStr_append2, strBytes_append_drop2]
  rw [readInputs_encode t.inputs hinp3]

/-- Witness for C1 at the concrete task
`{code := "x", inputs := [{identifier := "m1", numRows := 10, numCols := 20}]}`. -/
theorem serialize_deserialize_roundtrip_witness :
    Task.deserialize (Task.serialize ⟨"x", [⟨"m1", 10, 20⟩]⟩)
      = (⟨"x", [⟨"m1", 10, 20⟩]⟩ : Task) :=
  serialize_deserialize_roundtrip ⟨"x", [⟨"m1", 10, 20⟩]⟩
    (by decide) (by decide) (by decide) (by decide) (by decide)

/-! ## Aggregation-kernel lemmas -/

theorem foldl_range_getD (f : ℚ → ℚ → ℚ) (xs : List ℚ) :
    ∀ a : ℚ, (List.range xs.length).foldl (fun acc i => f acc (xs.getD i 0)) a
      = xs.foldl f a := by
  induction xs with
  | nil => intro a; rfl
  | cons y ys ih =>
    intro a
    rw [List.length_cons, List.range_succ_eq_map, List.foldl_cons, List.foldl_map]
    simp only [List.getD_cons_succ, List.getD_cons_zero, Nat.succ_eq_add_one]
    exact ih (f a y)

theorem aggArray_cons (x : ℚ) (xs : List ℚ) (numCells : Nat)
    (f : ℚ → ℚ → ℚ) (ss : Bool) (ne : ℚ) :
    aggArray (x :: xs) (x :: xs).length numCells f ss ne =
      if ss = false ∧ (x :: xs).length < numCells
      then f (xs.foldl f x) 0 else xs.foldl f x := by
  rw [aggArray, if_pos (by simp)]
  simp only [List.length_cons, Nat.add_sub_cancel, List.getD_cons_zero,
    List.getD_cons_succ]
  rw [foldl_range_getD]

theorem foldl_add_sum {a : Type} (f : a → ℚ) (l : List a) :
    ∀ q : ℚ, l.foldl (fun acc x => acc + f x) q = q + (l.map f).sum := by
  induction l with
  | nil => intro q; simp
  | cons x xs ih => intro q; simp [ih, add_assoc]

theorem denseAggAll_mean_eq (m : DenseMatrix) :
    denseAggAll .MEAN m = .ok (cellSum m / ((m.numRows * m.numCols : Nat) : ℚ)) := by
  simp only [denseAggAll, AggOpCodeUtils.isPureBinaryReduction,
    AggOpCodeUtils.getBinaryOpCode, ewBinFunc, Bool.false_eq_true, if_false,
    reduceCtorEq, if_true]
  have hfun : (fun (a : ℚ) (r : Nat) => List.foldl
        (fun a2 c => a2 + m.values.getD (r * m.rowSkip + c) 0) a (List.range m.numCols))
      = fun a r => a + ((List.range m.numCols).map
        (fun c => m.values.getD (r * m.rowSkip + c) 0)).sum := by
    funext a r
    exact foldl_add_sum _ _ a
  rw [hfun, foldl_add_sum, Nat.mul_comm m.numCols m.numRows]
  simp [cellSum]

/-- C2: over a compressed-sparse matrix with at least one stored value, a pure
binary reduction folds the stored values left-to-right seeded with the first
stored value, and combines exactly once more with zero iff the opcode is not
sparse-safe and some cells are unrepresented; for total cells = 10 and stored
values [5, -2, 5], SUM gives 8, MAX gives 5 and MIN gives -2. -/
theorem csr_agg_pure (m : CSRMatrix) (op : AggOpCode) (x : ℚ) (xs : List ℚ)
    (hop : AggOpCodeUtils.isPureBinaryReduction op = true)
    (hv : m.values = x :: xs) :
    (csrAggAll op m = .ok (
      if AggOpCodeUtils.isSparseSafe op = false ∧
          m.values.length < m.numRows * m.numCols
      then ewBinFunc (AggOpCodeUtils.getBinaryOpCode op)
        (xs.foldl (ewBinFunc (AggOpCodeUtils.getBinaryOpCode op)) x) 0
      else xs.foldl (ewBinFunc (AggOpCodeUtils.getBinaryOpCode op)) x))
    ∧ csrAggAll .SUM ⟨2, 5, [5, -2, 5]⟩ = .ok 8
    ∧ csrAggAll .MAX ⟨2, 5, [5, -2, 5]⟩ = .ok 5
    ∧ csrAggAll .MIN ⟨2, 5, [5, -2, 5]⟩ = .ok (-2) := by
  refine ⟨?_, ?_, ?_, ?_⟩
  · rw [csrAggAll, if_pos hop, hv, aggArray_cons]
  · simp [csrAggAll, aggArray, AggOpCodeUtils.isPureBinaryReduction,
      AggOpCodeUtils.getBinaryOpCode, AggOpCodeUtils.isSparseSafe,
      AggOpCodeUtils.getNeutral, ewBinFunc, List.range_succ]
    norm_num
  · simp [csrAggAll, aggArray, AggOpCodeUtils.isPureBinaryReduction,
      AggOpCodeUtils.getBinaryOpCode, AggOpCodeUtils.isSparseSafe,
      AggOpCodeUtils.getNeutral, ewBinFunc, List.range_succ]
    norm_num [max_def]
  · simp [csrAggAll, aggArray, AggOpCodeUtils.isPureBinaryReduction,
      AggOpCodeUtils.getBinaryOpCode, AggOpCodeUtils.isSparseSafe,
      AggOpCodeUtils.getNeutral, ewBinFunc, List.range_succ]
    norm_num [min_def]

/-- Witness for C2 at the concrete sparse matrix with 2×5 cells and stored
values [5, -2, 5], opcode SUM. -/
theorem csr_agg_pure_witness :
    csrAggAll .SUM ⟨2, 5, [5, -2, 5]⟩ = .ok
      (if AggOpCodeUtils.isSparseSafe .SUM = false ∧
          ([5, -2, 5] : List ℚ).length < 2 * 5
       then ewBinFunc (AggOpCodeUtils.getBinaryOpCode .SUM)
         (([-2, 5] : List ℚ).foldl (ewBinFunc (AggOpCodeUtils.getBinaryOpCode .SUM)) 5) 0
       else ([-2, 5] : List ℚ).foldl (ewBinFunc (AggOpCodeUtils.getBinaryOpCode .SUM)) 5) :=
  (csr_agg_pure ⟨2, 5, [5, -2, 5]⟩ .SUM 5 [-2, 5] (by decide) (by simp)).1

/-- C8: over a compressed-sparse matrix with no stored values, a pure binary
reduction returns the opcode's neutral element combined exactly once with
zero; for SUM over an all-zero matrix with 4 total cells the result is 0. -/
theorem csr_agg_empty (m : CSRMatrix) (op : AggOpCode)
    (hop : AggOpCodeUtils.isPureBinaryReduction op = true)
    (hv : m.values = []) :
    (csrAggAll op m = .ok (ewBinFunc (AggOpCodeUtils.getBinaryOpCode op)
      (AggOpCodeUtils.getNeutral op) 0))
    ∧ csrAggAll .SUM ⟨2, 2, []⟩ = .ok 0 := by
  constructor
  · rw [csrAggAll, if_pos hop, hv]
    simp [aggArray]
  · simp [csrAggAll, aggArray, AggOpCodeUtils.isPureBinaryReduction,
      AggOpCodeUtils.getBinaryOpCode, AggOpCodeUtils.isSparseSafe,
      AggOpCodeUtils.getNeutral, ewBinFunc]

/-- Witness for C8 at the concrete empty sparse matrix with 2×2 cells and
opcode SUM. -/
theorem csr_agg_empty_witness :
    csrAggAll .SUM ⟨2, 2, []⟩ = .ok (ewBinFunc (AggOpCodeUtils.getBinaryOpCode .SUM)
      (AggOpCodeUtils.getNeutral .SUM) 0) :=
  (csr_agg_empty ⟨2, 2, []⟩ .SUM (by decide) (by simp)).1

/-- C3: requesting the standard-deviation opcode raises the unsupported-
operation error in both the dense and the compressed-sparse path, and no
numeric result is returned. -/
theorem stddev_unsupported :
    (∀ m : DenseMatrix, denseAggAll .STDDEV m
      = .error "unsupported AggOpCode in AggAll for DenseMatrix")
    ∧ (∀ m : CSRMatrix, csrAggAll .STDDEV m
      = .error "unsupported AggOpCode in AggAll for CSRMatrix") := by
  constructor
  · intro m
    simp [denseAggAll, AggOpCodeUtils.isPureBinaryReduction]
  · intro m
    simp [csrAggAll, AggOpCodeUtils.isPureBinaryReduction]

/-- C7: dense MEAN aggregation sums every logical cell (rows by columns,
advancing the value pointer by the row stride) starting from zero and divides
by rows × cols; the 2×3 row-major matrix [1,2,3,4,5,6] yields 7/2. -/
theorem dense_mean_agg :
    (∀ m : DenseMatrix,
      denseAggAll .MEAN m = .ok (cellSum m / ((m.numRows * m.numCols : Nat) : ℚ)))
    ∧ denseAggAll .MEAN ⟨2, 3, 3, [1, 2, 3, 4, 5, 6]⟩ = .ok (7 / 2) := by
  refine ⟨denseAggAll_mean_eq, ?_⟩
  rw [denseAggAll_mean_eq]
  have h : cellSum ⟨2, 3, 3, [1, 2, 3, 4, 5, 6]⟩ = 21 := by
    simp [cellSum, List.range_succ]
    norm_num
  rw [h]
  norm_num

/-! ## Acknowledgment-parser theorems -/

theorem exceptBind_ok {a b : Type} (x : a) (f : a → Except String b) :
    (Except.ok x >>= f) = f x := rfl

theorem exceptBind_error {a b : Type} (e : String) (f : a → Except String b) :
    ((Except.error e : Except String a) >>= f) = Except.error e := rfl

theorem constructStoredInfo_err (s : String)
    (h : (splitComma s).length < 3) :
    constructStoredInfo s = .error "out_of_range" := by
  rw [constructStoredInfo]
  match hr : splitComma s with
  | [] => simp [vectorAt, exceptBind_ok, exceptBind_error]
  | [a] => simp [vectorAt, exceptBind_ok, exceptBind_error]
  | [a, b] => simp [vectorAt, exceptBind_ok, exceptBind_error]
  | a :: b :: c :: tl => rw [hr] at h; simp at h; omega

theorem constructStoredInfo_all_fields (s : String)
    (h : 3 ≤ (splitComma s).length) :
    exceptOk (constructStoredInfo s) = true := by
  rw [constructStoredInfo]
  cases hg0 : (splitComma s)[0]? with
  | none => rw [List.getElem?_eq_none_iff] at hg0; omega
  | some a =>
    cases hg1 : (splitComma s)[1]? with
    | none => rw [List.getElem?_eq_none_iff] at hg1; omega
    | some b =>
      cases hg2 : (splitComma s)[2]? with
      | none => rw [List.getElem?_eq_none_iff] at hg2; omega
      | some c =>
        simp [vectorAt, hg0, hg1, hg2, exceptOk, exceptBind_ok, exceptBind_error]

/-- C4 counterexample: on `"m1,10,20"` with the numeric field replaced by the
unparseable `"xx"`, `constructStoredInfo` does not fail — the `sscanf` return
value is ignored, so no error of any kind is raised. -/
theorem constructStoredInfo_nonnumeric_no_error :
    exceptOk (constructStoredInfo "m1,xx,20") = true := by decide

/-- C4 (amended): `"m1,10,20"` parses to {identifier "m1", 10 rows, 20 cols};
an input with fewer than 3 comma-delimited fields fails (the `vector::at`
out-of-range exception); but any input with at least 3 fields succeeds — in
particular, numeric fields that are not parseable as non-negative integers do
not cause an error, the corresponding descriptor field is simply left with an
unassigned (indeterminate) value. -/
theorem constructStoredInfo_parse :
    constructStoredInfo "m1,10,20" = .ok ⟨"m1", 10, 20⟩
    ∧ (∀ s : String, (splitComma s).length < 3 →
        constructStoredInfo s = .error "out_of_range")
    ∧ (∀ s : String, 3 ≤ (splitComma s).length →
        exceptOk (constructStoredInfo s) = true) :=
  ⟨rfl, constructStoredInfo_err, constructStoredInfo_all_fields⟩

/-- Witness for C4 at the concrete missing-field input `"m1,10"`. -/
theorem constructStoredInfo_parse_witness :
    constructStoredInfo "m1,10" = .error "out_of_range" :=
  constructStoredInfo_parse.2.1 "m1,10" (by decide)

/-! ## Serialization-size and bounds theorems -/

/-- C5: `sizeInBytes` uses the in-memory `sizeof(StoredInfo)` — a constant
per input — where the wire layout needs `8 + identifier length + 16` bytes
per input, so no value of that constant makes `sizeInBytes` equal the
serialized length for both a task whose only identifier is empty (wire length
41) and one whose identifier has two characters (wire length 43); with the
typical LP64 libstdc++ value 48 the code reports 65 bytes for the 41-byte
task. -/
theorem sizeInBytes_wrong_per_input :
    (∀ k : Nat,
      ¬ (Task.sizeInBytes k ⟨"x", [⟨"", 0, 0⟩]⟩
            = (Task.serialize ⟨"x", [⟨"", 0, 0⟩]⟩).length ∧
         Task.sizeInBytes k ⟨"x", [⟨"ab", 0, 0⟩]⟩
            = (Task.serialize ⟨"x", [⟨"ab", 0, 0⟩]⟩).length))
    ∧ Task.sizeInBytes 48 ⟨"x", [⟨"", 0, 0⟩]⟩ = 65
    ∧ (Task.serialize ⟨"x", [⟨"", 0, 0⟩]⟩).length = 41 := by
  refine ⟨?_, by decide, by decide⟩
  intro k hk
  obtain ⟨h1, h2⟩ := hk
  have l1 : (Task.serialize ⟨"x", [⟨"", 0, 0⟩]⟩).length = 41 := by decide
  have l2 : (Task.serialize ⟨"x", [⟨"ab", 0, 0⟩]⟩).length = 43 := by decide
  rw [l1] at h1
  rw [l2] at h2
  have e1 : Task.sizeInBytes k ⟨"x", [⟨"", 0, 0⟩]⟩ = 17 + k := by
    simp [Task.sizeInBytes]
    decide
  have e2 : Task.sizeInBytes k ⟨"x", [⟨"ab", 0, 0⟩]⟩ = 17 + k := by
    simp [Task.sizeInBytes]
    decide
  rw [e1] at h1
  rw [e2] at h2
  omega

/-- C6: on a 16-byte buffer that is just a header declaring a 5-byte code
blob and zero inputs, `deserialize` walks 21 bytes — past the end of the
buffer — with no rejection or bounds check of any kind before the access. -/
theorem deserialize_reads_past_end :
    deserializeExtent (natToLE 8 5 ++ natToLE 8 0) = 21
    ∧ (natToLE 8 5 ++ natToLE 8 0).length = 16
    ∧ (natToLE 8 5 ++ natToLE 8 0).length
        < deserializeExtent (natToLE 8 5 ++ natToLE 8 0) := by
  refine ⟨by decide, by decide, by decide⟩

/-! ## Message-distribution theorems -/

/-- C9: for the DATA and MLIR (task code) categories, `distributeWithTag`
sends exactly two messages to the destination — the payload length as a
4-byte integer under the category's size tag, then the raw payload under the
category's data tag, in that order — and sends nothing at all when the
destination is the coordinator's own rank. -/
theorem distribute_two_sends (len : Nat) (data : List Nat) (rank : Nat)
    (hlen : len = data.length) (hsmall : len < 2 ^ 32) :
    (rank ≠ COORDINATOR →
      distributeData len data rank
        = [⟨rank, tagValue .DATASIZE, .intVal len⟩,
           ⟨rank, tagValue .DATA, .raw data⟩]
      ∧ distributeTask len data rank
        = [⟨rank, tagValue .MLIRSIZE, .intVal len⟩,
           ⟨rank, tagValue .MLIR, .raw data⟩])
    ∧ distributeData len data COORDINATOR = []
    ∧ distributeTask len data COORDINATOR = [] := by
  subst hlen
  refine ⟨fun hr => ⟨?_, ?_⟩, ?_, ?_⟩
  · simp [distributeData, distributeWithTag, hr, Nat.mod_eq_of_lt hsmall]
    norm_num at hsmall
    exact ⟨hsmall, le_of_eq (Nat.mod_eq_of_lt hsmall).symm⟩
  · simp [distributeTask, distributeWithTag, hr, Nat.mod_eq_of_lt hsmall]
    norm_num at hsmall
    exact ⟨hsmall, le_of_eq (Nat.mod_eq_of_lt hsmall).symm⟩
  · simp [distributeData, distributeWithTag]
  · simp [distributeTask, distributeWithTag]

/-- Witness for C9 at a 3-byte payload sent to rank 1. -/
theorem distribute_two_sends_witness :
    distributeData 3 [1, 2, 3] 1
      = [⟨1, tagValue .DATASIZE, .intVal 3⟩, ⟨1, tagValue .DATA, .raw [1, 2, 3]⟩] :=
  ((distribute_two_sends 3 [1, 2, 3] 1 (by decide) (by decide)).1 (by decide)).1

/-- C10: for every message category other than DATA and MLIR, the switch in
`distributeWithTag` resolves neither tag, and both messages to a
non-coordinator destination go out with tag -1 — so valid tagged
transmission presupposes the category is DATA or MLIR. -/
theorem distribute_unresolved_tag (t : TypesOfMessages) (len : Nat)
    (data : List Nat) (rank : Nat)
    (ht1 : t ≠ .DATA) (ht2 : t ≠ .MLIR) (hr : rank ≠ COORDINATOR) :
    distributeWithTag t len data rank
      = [⟨rank, -1, .intVal (len % 2 ^ 32)⟩,
         ⟨rank, -1, .raw (data.take (len % 2 ^ 32))⟩] := by
  cases t <;> simp_all [distributeWithTag]

/-- Witness for C10 at the BROADCAST category, a 2-byte payload and rank 1. -/
theorem distribute_unresolved_tag_witness :
    distributeWithTag .BROADCAST 2 [7, 8] 1
      = [⟨1, -1, .intVal 2⟩, ⟨1, -1, .raw [7, 8]⟩] := by
  have h := distribute_unresolved_tag .BROADCAST 2 [7, 8] 1
    (by decide) (by decide) (by decide)
  simpa using h

end Daphne
